import Mathlib

/-!
Verification of the ez-replace matching and substitution engine.

The definitions below are a shallow embedding of the TypeScript source:
`src/main.ts` (pair selection, pattern matching, capture interpolation,
context classification), the template processor (cursor/tab-stop marker
stripping) and the settings tab's import flow.  JavaScript strings are
modelled as Lean `String`/`List Char`; absent (`undefined`) optional
fields are modelled with `Option`; the host runtime's regex engine is an
explicit parameter (`RegexEngine`), with a small executable engine
(`miniEngine`) covering the concrete patterns exercised by the spec's
examples.
-/

namespace EZReplace

/-- JS `String.prototype.toLowerCase`, restricted to the per-character
case mapping (ASCII-faithful). -/
def lowerStr (s : String) : String := String.mk (s.data.map Char.toLower)

/-- One scan step of a non-overlapping left-to-right substring search:
does `pat` occur in `s`?  (`pat = []` is reported as not occurring;
every pattern used by the code is non-empty.) -/
def containsSubCore (pat : List Char) : List Char → Bool
  | [] => false
  | c :: rest => (pat ≠ [] && pat.isPrefixOf (c :: rest)) || containsSubCore pat rest

/-- Fuel-driven core of JS `str.replace(/pat/g, repl)` for a literal
pattern: scan left to right, replace each non-overlapping occurrence,
never rescanning replaced text.  Callers pass `fuel = s.length`, which
is always sufficient. -/
def replaceAllCore (pat repl : List Char) : Nat → List Char → List Char
  | _, [] => []
  | 0, s => s
  | fuel + 1, c :: rest =>
    if pat ≠ [] && pat.isPrefixOf (c :: rest) then
      repl ++ replaceAllCore pat repl fuel ((c :: rest).drop pat.length)
    else
      c :: replaceAllCore pat repl fuel rest

/-- JS `str.replace(/pat/g, repl)` for a literal pattern with a literal
replacement. -/
def replaceAll (s pat repl : String) : String :=
  String.mk (replaceAllCore pat.data repl.data s.data.length s.data)

/-- JS `str.replace(pat, repl)` with a *string* pattern: only the first
occurrence is replaced. -/
def replaceFirstCore (pat repl : List Char) : List Char → List Char
  | [] => []
  | c :: rest =>
    if pat ≠ [] && pat.isPrefixOf (c :: rest) then
      repl ++ (c :: rest).drop pat.length
    else
      c :: replaceFirstCore pat repl rest

/-- Fuel-driven count of non-overlapping left-to-right occurrences of
`pat`, mirroring the scan of `replaceAllCore`. -/
def countOccCore (pat : List Char) : Nat → List Char → Nat
  | _, [] => 0
  | 0, _ => 0
  | fuel + 1, c :: rest =>
    if pat ≠ [] && pat.isPrefixOf (c :: rest) then
      1 + countOccCore pat fuel ((c :: rest).drop pat.length)
    else
      countOccCore pat fuel rest

/-- Number of non-overlapping occurrences of `pat` in `s`. -/
def countOcc (s pat : String) : Nat := countOccCore pat.data s.data.length s.data

/-- Does `pat` occur in `s` as a substring? -/
def containsSub (s pat : String) : Bool := containsSubCore pat.data s.data

/-- JS `String.prototype.lastIndexOf` for a single character on a char
list, returning `-1` when the character is absent (as the source's
`isInLink` compares these indices as numbers). -/
def lastIndexOf (cs : List Char) (c : Char) : Int :=
  (cs.foldl (fun (p : Int × Int) x => (if x = c then p.2 else p.1, p.2 + 1)) (-1, 0)).1

/-! ## Data model (src/types.ts) -/

/-- `ContextType` from src/types.ts. -/
inductive ContextType where
  | codeBlock | inlineCode | heading | link | quote | list | normal
deriving DecidableEq, Repr, BEq

/-- `MatchContext` from src/types.ts.  The source's optional
`include`/`exclude` arrays are modelled as lists where an absent field
is `[]`: the guards `exclude && exclude.length > 0` (resp. `include`)
skip the check for both `undefined` and `[]`, so the two states are
observationally identical.  (`include` is a Lean keyword, hence the
field names.) -/
structure MatchContext where
  includeTags : List ContextType := []
  excludeTags : List ContextType := []
deriving DecidableEq, Repr

/-- `ReplacementPair` from src/types.ts, restricted to the fields the
matching engine reads.  `caseSensitive` and `wholeWord` are optional
booleans (`none` = `undefined`) because the matcher distinguishes
`undefined` from `false` (`=== false`, `=== true` and truthiness tests
all occur); `isRegex`/`enabled`/`isTemplate` are only ever tested for
truthiness, so plain `Bool` with `false` for `undefined` is faithful.
An absent `source`/`target` is modelled as `""` (both are falsy). -/
structure ReplacementPair where
  id : String := ""
  source : String
  target : String
  enabled : Bool := true
  caseSensitive : Option Bool := none
  wholeWord : Option Bool := none
  isRegex : Bool := false
  regexFlags : Option String := none
  matchContext : Option MatchContext := none
  isTemplate : Bool := false
deriving DecidableEq, Repr

/-- A JS `RegExpMatchArray`: index 0 (the full matched substring) and
the numbered capture groups, `none` for a group that did not
participate. -/
structure MatchArray where
  full : String
  groups : List (Option String)
deriving DecidableEq, Repr

/-- Truthy results of `isMatch` (src/main.ts line 235): `true` for a
literal match, a match array for a regex match.  The falsy results
(`false`, `null`) are `none` in `Option MatchVal`. -/
inductive MatchVal where
  | literal
  | regex (m : MatchArray)
deriving DecidableEq, Repr

/-- `RegexValidationResult` from src/types.ts. -/
structure RegexValidationResult where
  valid : Bool
  error : Option String := none
deriving DecidableEq, Repr

/-- The host runtime's regex engine, which the source reaches through
`new RegExp(pattern, flags)` / `text.match(regex)` and which this spec
treats as an external collaborator.  `compiles` is pattern/flags
compilation success; `exec` is `text.match(regex)` for a non-global
regex: the leftmost match, or `none`.  `exec` is total: the source
wraps the calls in `try`/`catch` and maps exceptions to `null`. -/
structure RegexEngine where
  compiles : String → String → Bool
  exec : String → String → String → Option MatchArray

/-! ## Pattern matcher (src/main.ts lines 235-344) -/

/-- `validateRegex` (src/main.ts lines 298-310): an empty pattern is
invalid (`!pattern`), otherwise validity is compilation success with
the given flags (`flags || ''`). -/
def validateRegex (E : RegexEngine) (pattern : String) (flags : Option String) :
    RegexValidationResult :=
  if pattern = "" then
    { valid := false, error := some "Pattern is empty" }
  else if E.compiles pattern (flags.getD "") then
    { valid := true }
  else
    { valid := false, error := some "Invalid regex pattern" }

/-- The flag computation of `regexMatch` (src/main.ts lines 272-278):
`let flags = pair.regexFlags || ''`, appending `'i'` when
`caseSensitive === false` and `'i'` is not already present. -/
def effectiveFlags (pair : ReplacementPair) : String :=
  let flags0 := pair.regexFlags.getD ""
  if pair.caseSensitive = some false && !(flags0.data.contains 'i') then
    flags0 ++ "i"
  else
    flags0

/-- `regexMatch` (src/main.ts lines 265-292): validate the pattern,
build effective flags, run the engine, and accept only when the full
matched substring equals the whole input (`match[0] === text`). -/
def regexMatch (E : RegexEngine) (text : String) (pair : ReplacementPair) :
    Option MatchArray :=
  if !(validateRegex E pair.source pair.regexFlags).valid then
    none
  else
    match E.exec pair.source (effectiveFlags pair) text with
    | some m => if m.full = text then some m else none
    | none => none

/-- JS `\w` (ASCII word character), as used by `\b`. -/
def isWordChar (c : Char) : Bool := c.isAlphanum || c = '_'

/-- Character comparison under the `'i'` flag (simple case folding;
ASCII-faithful). -/
def charEqCI (ci : Bool) (a b : Char) : Bool :=
  if ci then a.toLower = b.toLower else a = b

/-- Does `src` occur literally at position `i` of `text` (folding case
when `ci`)? -/
def matchesAt (ci : Bool) (src text : List Char) (i : Nat) : Bool :=
  (List.zip src (text.drop i)).all (fun p => charEqCI ci p.1 p.2)
    && src.length ≤ (text.drop i).length

/-- JS `\b`: position `p` of `text` is a word boundary iff exactly one
of its two neighbouring characters is a word character. -/
def boundaryAt (text : List Char) (p : Nat) : Bool :=
  let before := decide (0 < p) && (match text.get? (p - 1) with
    | some c => isWordChar c
    | none => false)
  let after := match text.get? p with
    | some c => isWordChar c
    | none => false
  before != after

/-- The whole-word test of `isMatch` (src/main.ts line 253-254):
`new RegExp('\\b' + escapeRegex(src) + '\\b', ci ? 'i' : '').test(text)`.
`escapeRegex` makes `src` a literal, so the test succeeds iff `src`
occurs somewhere in `text` (case-folded when `ci`) with a word boundary
immediately before and after the occurrence. -/
def wordBoundaryTest (src : String) (ci : Bool) (text : String) : Bool :=
  (List.range (text.data.length + 1)).any fun i =>
    matchesAt ci src.data text.data i
      && boundaryAt text.data i
      && boundaryAt text.data (i + src.data.length)

/-- `isMatch` (src/main.ts lines 235-259).  Regex pairs defer to
`regexMatch`; literal pairs lower-case both sides when
`caseSensitive === false`, use the word-boundary regex test when
`wholeWord === true` (note: flags are `pair.caseSensitive ? '' : 'i'`,
a truthiness test, and the regex is tested against the *original*
`text`), and otherwise compare for string equality. -/
def isMatch (E : RegexEngine) (text : String) (pair : ReplacementPair) :
    Option MatchVal :=
  if pair.isRegex then
    (regexMatch E text pair).map MatchVal.regex
  else
    let sourceToMatch := if pair.caseSensitive = some false then lowerStr pair.source
      else pair.source
    let textToMatch := if pair.caseSensitive = some false then lowerStr text else text
    if pair.wholeWord = some true then
      if wordBoundaryTest sourceToMatch (pair.caseSensitive ≠ some true) text then
        some MatchVal.literal
      else
        none
    else if sourceToMatch = textToMatch then
      some MatchVal.literal
    else
      none

/-- `isContextAllowed` (src/main.ts lines 457-478): no filter allows
everything; a non-empty exclude list containing the context denies; a
non-empty include list then decides by membership; otherwise allow. -/
def isContextAllowed (pair : ReplacementPair) (context : ContextType) : Bool :=
  match pair.matchContext with
  | none => true
  | some mc =>
    if mc.excludeTags ≠ [] && mc.excludeTags.contains context then
      false
    else if mc.includeTags ≠ [] then
      mc.includeTags.contains context
    else
      true

/-- The loop of `findMatchingPairWithResult` (src/main.ts lines
216-226) over the already-filtered enabled pairs: skip pairs whose
context filter rejects the (present) context, return the first truthy
`isMatch` result. -/
def findLoop (E : RegexEngine) (text : String) (context : Option ContextType) :
    List ReplacementPair → Option (ReplacementPair × MatchVal)
  | [] => none
  | pair :: rest =>
    if (match context with
        | some c => !(isContextAllowed pair c)
        | none => false) then
      findLoop E text context rest
    else
      match isMatch E text pair with
      | some m => some (pair, m)
      | none => findLoop E text context rest

/-- `findMatchingPairWithResult` (src/main.ts lines 211-229): filter to
enabled pairs, then scan in list order. -/
def findMatchingPairWithResult (E : RegexEngine) (pairs : List ReplacementPair)
    (text : String) (context : Option ContextType) :
    Option (ReplacementPair × MatchVal) :=
  findLoop E text context (pairs.filter (fun p => p.enabled))

/-- Modelled from the spec's words (§4.5, §3 invariants), for
comparison with `findMatchingPairWithResult`: the outcome of the
*first* pair in list order that is enabled, allowed by its context
filter, and whose pattern matches; `none` when no such pair exists. -/
def selectSpec (E : RegexEngine) (pairs : List ReplacementPair)
    (text : String) (context : Option ContextType) :
    Option (ReplacementPair × MatchVal) :=
  match pairs.find? (fun p =>
      p.enabled
        && (match context with
            | some c => isContextAllowed p c
            | none => true)
        && (isMatch E text p).isSome) with
  | some p => (isMatch E text p).map (fun m => (p, m))
  | none => none

/-! ## Capture interpolator (src/main.ts lines 317-337) -/

/-- The sentinel `'\x00ESCAPED_DOLLAR\x00'` used by
`applyCaptureGroups` to protect escaped dollar signs. -/
def ESCAPED_DOLLAR_PLACEHOLDER : String := "\x00ESCAPED_DOLLAR\x00"

/-- The literal pattern of `new RegExp('\\$' + i, 'g')` for a single
digit `i`: the two-character string `$i`. -/
def dollarPat (i : Nat) : String := String.mk ['$', Char.ofNat (48 + i)]

/-- `match[i] || ''`: capture group `i`'s text, or the empty string
when the group did not participate (or does not exist). -/
def groupVal (m : MatchArray) (i : Nat) : String :=
  ((m.groups.getD (i - 1) none).getD "")

/-- The `for (let i = 1; i <= 9; i++)` loop of `applyCaptureGroups`:
replace every `$i` with capture group `i`'s text. -/
def capLoop (m : MatchArray) : String → List Nat → String
  | r, [] => r
  | r, i :: is => capLoop m (replaceAll r (dollarPat i) (groupVal m i)) is

/-- `applyCaptureGroups` (src/main.ts lines 317-337): protect `\$`
with the sentinel, substitute `$0` with the full match, substitute
`$1`..`$9` with the capture groups, restore the sentinel to `$`. -/
def applyCaptureGroups (target : String) (m : MatchArray) : String :=
  let r1 := replaceAll target "\\$" ESCAPED_DOLLAR_PLACEHOLDER
  let r2 := replaceAll r1 (dollarPat 0) m.full
  let r3 := capLoop m r2 [1, 2, 3, 4, 5, 6, 7, 8, 9]
  replaceAll r3 ESCAPED_DOLLAR_PLACEHOLDER "$"

/-! ## Context classifier (src/main.ts lines 350-451) -/

/-- JS `String.prototype.trim`: drop whitespace from both ends
(ASCII-faithful). -/
def trimmed (l : String) : List Char :=
  ((l.data.dropWhile (fun c => c.isWhitespace)).reverse.dropWhile
    (fun c => c.isWhitespace)).reverse

/-- The fence test `/^```|^~~~/.test(line.trim())` of `isInCodeBlock`. -/
def isFenceLine (l : String) : Bool :=
  ['`', '`', '`'].isPrefixOf (trimmed l) || ['~', '~', '~'].isPrefixOf (trimmed l)

/-- `isInCodeBlock` (src/main.ts lines 391-403): walk line indices `0`
through `currentLine` inclusive, toggling the in-fence flag on every
fence line, and report the final flag.  (The editor only calls this
with a valid line number; an out-of-range index reads as `""`, which is
not a fence.) -/
def isInCodeBlock (lines : List String) (currentLine : Nat) : Bool :=
  (List.range (currentLine + 1)).foldl
    (fun flag i => if isFenceLine (lines.getD i "") then !flag else flag) false

/-- Modelled from the spec's words (§4.1 step 1, claim C9), for
comparison with `isInCodeBlock`: fold the toggle over the *lines* `0`
through the target line inclusive. -/
def codeBlockScanSpec (lines : List String) (currentLine : Nat) : Bool :=
  (lines.take (currentLine + 1)).foldl
    (fun flag l => if isFenceLine l then !flag else flag) false

/-- The scan of `isInInlineCode`: `prev` is the previously visited
character (the code's `lineText[i-1]`; `none` at `i = 0`). -/
def inlineScan : Option Char → Bool → List Char → Bool
  | _, flag, [] => flag
  | prev, flag, c :: rest =>
    if c = '`' then
      if prev = some '\\' then inlineScan (some c) flag rest
      else inlineScan (some c) (!flag) rest
    else inlineScan (some c) flag rest

/-- `isInInlineCode` (src/main.ts lines 408-425): toggle on every
unescaped backtick among the characters left of the column. -/
def isInInlineCode (lineText : String) (ch : Nat) : Bool :=
  inlineScan none false (lineText.data.take ch)

/-- The heading test `/^#{1,6}\s/.test(lineText)`. -/
def isHeadingLine (l : String) : Bool :=
  let h := (l.data.takeWhile (· = '#')).length
  decide (1 ≤ h) && decide (h ≤ 6)
    && (match l.data.get? h with
        | some c => c.isWhitespace
        | none => false)

/-- `isInLink` (src/main.ts lines 430-451): compare last-index
positions of brackets and parentheses in the text left of the column,
with `-1` for an absent character, exactly as the source does. -/
def isInLink (lineText : String) (ch : Nat) : Bool :=
  let beforeCursor := lineText.data.take ch
  let lastOpenBracket := lastIndexOf beforeCursor '['
  let lastCloseBracket := lastIndexOf beforeCursor ']'
  let lastOpenParen := lastIndexOf beforeCursor '('
  let lastCloseParen := lastIndexOf beforeCursor ')'
  if lastOpenBracket > lastCloseBracket then
    true
  else if lastOpenParen > lastCloseParen && lastCloseBracket ≠ -1
      && lastOpenParen > lastCloseBracket then
    true
  else
    false

/-- The quote test `/^>\s*/.test(lineText)` (the `\s*` may be empty,
so this is just a leading `>`). -/
def isQuoteLine (l : String) : Bool :=
  match l.data with
  | '>' :: _ => true
  | _ => false

/-- The list-item test `/^[\s]*[-*+]\s|^[\s]*\d+\.\s/.test(lineText)`. -/
def isListLine (l : String) : Bool :=
  let afterWs := l.data.dropWhile (fun c => c.isWhitespace)
  let bullet := match afterWs with
    | c :: d :: _ => (c = '-' || c = '*' || c = '+') && d.isWhitespace
    | _ => false
  let ds := afterWs.takeWhile (fun c => c.isDigit)
  let numbered := decide (ds ≠ [])
    && (match afterWs.get? ds.length with
        | some c => c = '.'
        | none => false)
    && (match afterWs.get? (ds.length + 1) with
        | some c => c.isWhitespace
        | none => false)
  bullet || numbered

/-- `detectContext` (src/main.ts lines 350-386): the document is the
list of lines of `getValue().split('\n')`; `lineText` is
`getLine(line)`.  Checks run in the source's precedence order. -/
def detectContext (lines : List String) (line ch : Nat) : ContextType :=
  let lineText := lines.getD line ""
  if isInCodeBlock lines line then ContextType.codeBlock
  else if isInInlineCode lineText ch then ContextType.inlineCode
  else if isHeadingLine lineText then ContextType.heading
  else if isInLink lineText ch then ContextType.link
  else if isQuoteLine lineText then ContextType.quote
  else if isListLine lineText then ContextType.list
  else ContextType.normal

/-! ## Template processor markers (templateProcessor source) -/

/-- `TemplateProcessor.CURSOR_MARKER`: the literal string `{{cursor}}`. -/
def CURSOR_MARKER : String := "\x7b\x7bcursor\x7d\x7d"

/-- `removeCursorMarker`: `template.replace(CURSOR_MARKER, '')` with a
*string* pattern, so only the first occurrence is removed. -/
def removeCursorMarker (template : String) : String :=
  String.mk (replaceFirstCore CURSOR_MARKER.data [] template.data)

/-- A match of `TABSTOP_REGEX` (`/\{\{tab(\d+)\}\}/g`) starting at the
head of `s`: returns the matched length (`{{tab` + digits + `}}`). -/
def tabStopAt (s : List Char) : Option Nat :=
  if ['\x7b', '\x7b', 't', 'a', 'b'].isPrefixOf s then
    let ds := (s.drop 5).takeWhile (fun c => c.isDigit)
    if ds ≠ [] && ['\x7d', '\x7d'].isPrefixOf (s.drop (5 + ds.length)) then
      some (7 + ds.length)
    else
      none
  else
    none

/-- Fuel-driven scan of `template.replace(TABSTOP_REGEX, '')`:
leftmost, non-overlapping removal of every `{{tabN}}` marker. -/
def stripTabsCore : Nat → List Char → List Char
  | _, [] => []
  | 0, s => s
  | fuel + 1, c :: rest =>
    match tabStopAt (c :: rest) with
    | some k => stripTabsCore fuel ((c :: rest).drop k)
    | none => c :: stripTabsCore fuel rest

/-- `removeTabStopMarkers`. -/
def removeTabStopMarkers (template : String) : String :=
  String.mk (stripTabsCore template.data.length template.data)

/-- The marker-stripping tail of `processTemplate` (src/main.ts lines
139-142), applied to the processed (variable-substituted) template:
remove the cursor marker, then remove the tab-stop markers.  Its
result is the text inserted into the document for a template pair. -/
def processTemplateFinal (processed : String) : String :=
  removeTabStopMarkers (removeCursorMarker processed)

/-! ## Import flow (settings tab: `importSettings` / `showImportDialog`) -/

/-- The parsed JSON payload of an import: either not an array, or an
array of pair-shaped objects (absent `source`/`target` modelled as `""`;
`!pair.source` in the source rejects both `undefined` and `""`). -/
inductive ImportPayload where
  | notArray
  | arr (ps : List ReplacementPair)

/-- The user's choice in the import dialog. -/
inductive ImportChoice where
  | replaceMode
  | mergeMode
  | cancelMode

/-- The validation in `importSettings`: the payload must be an array
and every element must have truthy `source` and `target`; on failure
the import aborts (caught error, notice) before the dialog is shown. -/
def importValidate : ImportPayload → Option (List ReplacementPair)
  | ImportPayload.notArray => none
  | ImportPayload.arr ps =>
    if ps.all (fun p => p.source != "" && p.target != "") then some ps else none

/-- The combined import flow (`importSettings` + `showImportDialog`):
an invalid payload never reaches the dialog and leaves the pair list
untouched; a valid payload replaces the list (Replace), appends to it
(Merge), or leaves it unchanged (Cancel). -/
def importFlow (current : List ReplacementPair) (payload : ImportPayload)
    (choice : ImportChoice) : List ReplacementPair :=
  match importValidate payload with
  | none => current
  | some ps =>
    match choice with
    | ImportChoice.replaceMode => ps
    | ImportChoice.mergeMode => current ++ ps
    | ImportChoice.cancelMode => current

/-! ## A small executable regex engine

`RegexEngine` abstracts the host runtime's engine.  For the spec's
concrete regex example we instantiate it with a small interpreter for
the fragment of the dialect the example uses: literal characters,
escapes, `\d`, capturing groups and exact counts `{n}`.  On the
patterns it parses it computes the leftmost match with JS numbering of
capture groups. -/

/-- Regex fragment: empty, a literal character, a digit class `\d`,
concatenation, and a capturing group. -/
inductive RE where
  | eps
  | lit (c : Char)
  | dig
  | cat (a b : RE)
  | grp (r : RE)
deriving Repr

/-- Run a regex at the head of the input: the matched characters, the
captured groups in group-number order, and the remaining input.  The
fragment has no alternation, so matching is deterministic. -/
def mrun : RE → List Char → Option (List Char × List (List Char) × List Char)
  | RE.eps, s => some ([], [], s)
  | RE.lit c, x :: xs => if x = c then some ([c], [], xs) else none
  | RE.lit _, [] => none
  | RE.dig, x :: xs => if x.isDigit then some ([x], [], xs) else none
  | RE.dig, [] => none
  | RE.cat a b, s =>
    match mrun a s with
    | none => none
    | some (m1, c1, r1) =>
      match mrun b r1 with
      | none => none
      | some (m2, c2, r2) => some (m1 ++ m2, c1 ++ c2, r2)
  | RE.grp r, s =>
    match mrun r s with
    | none => none
    | some (m, c, r2) => some (m, m :: c, r2)

/-- `{n}` expansion: `n` sequential copies. -/
def repRE : Nat → RE → RE
  | 0, _ => RE.eps
  | n + 1, r => RE.cat r (repRE n r)

/-- Parse a non-empty run of decimal digits. -/
def parseDigitsNat (cs : List Char) : Option (Nat × List Char) :=
  let ds := cs.takeWhile (fun c => c.isDigit)
  if ds = [] then none
  else some (ds.foldl (fun n c => n * 10 + (c.toNat - 48)) 0, cs.drop ds.length)

/-- Metacharacters the mini engine does not treat as literals. -/
def regexSpecials : List Char :=
  ['(', ')', '\x7b', '\x7d', '[', ']', '|', '*', '+', '?', '^', '$', '.', '\\']

mutual

/-- Parse one atom: a group, an escape, or a literal character. -/
def parseAtomRE : Nat → List Char → Option (RE × List Char)
  | 0, _ => none
  | fuel + 1, cs =>
    match cs with
    | '(' :: rest =>
      match parseSeqRE fuel rest with
      | some (r, ')' :: r2) => some (RE.grp r, r2)
      | _ => none
    | '\\' :: 'd' :: rest => some (RE.dig, rest)
    | '\\' :: c :: rest => some (RE.lit c, rest)
    | c :: rest => if regexSpecials.contains c then none else some (RE.lit c, rest)
    | [] => none

/-- Parse a sequence of atoms, each with an optional `{n}` count. -/
def parseSeqRE : Nat → List Char → Option (RE × List Char)
  | 0, _ => none
  | fuel + 1, cs =>
    match cs with
    | [] => some (RE.eps, [])
    | ')' :: _ => some (RE.eps, cs)
    | _ =>
      match parseAtomRE fuel cs with
      | none => none
      | some (a, r1) =>
        let quant : RE × List Char :=
          match r1 with
          | '\x7b' :: r2 =>
            match parseDigitsNat r2 with
            | some (n, '\x7d' :: r3) => (repRE n a, r3)
            | _ => (a, r1)
          | _ => (a, r1)
        match parseSeqRE fuel quant.2 with
        | none => none
        | some (b, r2) => some (RE.cat quant.1 b, r2)

end

/-- Parse a whole pattern (with ample fuel); the parse must consume the
entire pattern. -/
def parseRegexFull (p : String) : Option RE :=
  match parseSeqRE (2 * p.data.length + 4) p.data with
  | some (r, []) => some r
  | _ => none

/-- Leftmost match: try each start position from the left. -/
def searchRE (r : RE) : List Char → Option (List Char × List (List Char))
  | [] =>
    match mrun r [] with
    | some (m, caps, _) => some (m, caps)
    | none => none
  | c :: xs =>
    match mrun r (c :: xs) with
    | some (m, caps, _) => some (m, caps)
    | none => searchRE r xs

/-- The executable engine instance.  Flags are ignored: the example
patterns carry no flags and no case folding. -/
def miniEngine : RegexEngine where
  compiles p _ := (parseRegexFull p).isSome
  exec p _ t :=
    match parseRegexFull p with
    | none => none
    | some r =>
      (searchRE r t.data).map fun mc =>
        { full := String.mk mc.1, groups := mc.2.map (fun g => some (String.mk g)) }

/-! ## General lemmas -/

theorem String.mk_data (s : String) : String.mk s.data = s := rfl

/-- A global literal replace leaves a string without occurrences of the
pattern unchanged, whatever the replacement is. -/
theorem replaceAllCore_not_contains (pat repl : List Char) :
    ∀ fuel s, containsSubCore pat s = false → replaceAllCore pat repl fuel s = s := by
  intro fuel
  induction fuel with
  | zero => intro s _; cases s <;> rfl
  | succ n ih =>
    intro s h
    cases s with
    | nil => rfl
    | cons c rest =>
      rw [containsSubCore, Bool.or_eq_false_iff] at h
      rw [replaceAllCore, h.1]
      simp [ih rest h.2]

/-- String-level version of `replaceAllCore_not_contains`. -/
theorem replaceAll_not_contains (s pat repl : String) (h : containsSub s pat = false) :
    replaceAll s pat repl = s := by
  unfold replaceAll
  rw [replaceAllCore_not_contains pat.data repl.data s.data.length s.data h]

/-- `capLoop` leaves a string containing none of the `$i` patterns
unchanged, whatever the group values are. -/
theorem capLoop_not_contains (m : MatchArray) :
    ∀ is s, (∀ i ∈ is, containsSub s (dollarPat i) = false) → capLoop m s is = s := by
  intro is
  induction is with
  | nil => intro s _; rfl
  | cons i rest ih =>
    intro s h
    rw [capLoop, replaceAll_not_contains s _ _ (h i (by simp)),
      ih s (fun j hj => h j (by simp [hj]))]

/-- One step of the `$1`..`$9` substitution loop. -/
theorem capLoop_cons (m : MatchArray) (s : String) (i : Nat) (is : List Nat) :
    capLoop m s (i :: is) = capLoop m (replaceAll s (dollarPat i) (groupVal m i)) is := rfl

/-- A positive occurrence count implies a substring occurrence. -/
theorem countOccCore_pos_contains (pat : List Char) :
    ∀ fuel s, 1 ≤ countOccCore pat fuel s → containsSubCore pat s = true := by
  intro fuel
  induction fuel with
  | zero => intro s h; cases s <;> simp [countOccCore] at h
  | succ n ih =>
    intro s h
    cases s with
    | nil => simp [countOccCore] at h
    | cons c rest =>
      rw [countOccCore] at h
      rw [containsSubCore]
      by_cases hc : (pat ≠ [] && pat.isPrefixOf (c :: rest)) = true
      · rw [hc]
        rfl
      · rw [if_neg hc] at h
        rw [ih rest h]
        simp

/-- Removing the first occurrence of a pattern from a string holding at
least two (non-overlapping) occurrences leaves at least one. -/
theorem replaceFirst_keeps_later_occurrence (pat : List Char) :
    ∀ fuel s, s.length ≤ fuel → 2 ≤ countOccCore pat fuel s →
      containsSubCore pat (replaceFirstCore pat [] s) = true := by
  intro fuel
  induction fuel with
  | zero =>
    intro s hlen h
    cases s with
    | nil => simp [countOccCore] at h
    | cons c rest => simp at hlen
  | succ n ih =>
    intro s hlen h
    cases s with
    | nil => simp [countOccCore] at h
    | cons c rest =>
      rw [countOccCore] at h
      rw [replaceFirstCore]
      by_cases hc : (pat ≠ [] && pat.isPrefixOf (c :: rest)) = true
      · rw [if_pos hc]
        rw [if_pos hc] at h
        have h1 : 1 ≤ countOccCore pat n ((c :: rest).drop pat.length) := by omega
        simpa using countOccCore_pos_contains pat n _ h1
      · rw [if_neg hc]
        rw [if_neg hc] at h
        rw [containsSubCore]
        have hr : rest.length ≤ n := by
          simpa using Nat.le_of_succ_le_succ hlen
        simp [ih rest hr h]

/-- Case-lowering maps the empty string to itself and nothing else. -/
theorem lowerStr_eq_empty_iff (s : String) : lowerStr s = "" ↔ s = "" := by
  cases s with
  | mk d =>
    unfold lowerStr
    constructor
    · intro h
      have hd : d.map Char.toLower = [] := by
        have := congrArg String.data h
        simpa using this
      have : d = [] := by simpa using hd
      simp [this]
    · intro h
      have : d = [] := by
        have := congrArg String.data h
        simpa using this
      simp [this]

/-- The empty line is not a code fence. -/
theorem isFenceLine_empty : isFenceLine "" = false := by decide

/-- The indexed scan of `isInCodeBlock` coincides with folding the
toggle over the lines `0 .. k-1` themselves: indices past the end of
the document read as `""`, which never toggles. -/
theorem rangeScan_eq_takeScan (lines : List String) :
    ∀ k flag,
      (List.range k).foldl
          (fun f i => if isFenceLine (lines.getD i "") then !f else f) flag
        = (lines.take k).foldl (fun f l => if isFenceLine l then !f else f) flag := by
  intro k
  induction k with
  | zero => intro flag; rfl
  | succ n ih =>
    intro flag
    rw [List.range_succ, List.foldl_append, List.take_succ, List.foldl_append, ih]
    cases hg : lines[n]? with
    | none => simp [List.getD_eq_getD_get?, hg, isFenceLine_empty]
    | some l => simp [List.getD_eq_getD_get?, hg]

/-! ## Concrete pairs used in the examples -/

/-- The spec's regex example pair:
`{source:"(\d{4})-(\d{2})-(\d{2})", target:"$3/$2/$1", isRegex:true}`. -/
def dateRegexPair : ReplacementPair :=
  { source := "(\\d\x7b4\x7d)-(\\d\x7b2\x7d)-(\\d\x7b2\x7d)",
    target := "$3/$2/$1",
    isRegex := true }

/-- A literal whole-word pair with explicit `caseSensitive: true`. -/
def wholeWordHelloPair : ReplacementPair :=
  { source := "hello", target := "goodbye",
    wholeWord := some true, caseSensitive := some true }

/-- A literal whole-word pair with `caseSensitive` absent. -/
def defaultCaseWholeWordPair : ReplacementPair :=
  { source := "hello", target := "hi", wholeWord := some true }

/-! ## Claims -/

/-- Claim C1: for every input text, optional context tag and pair list,
the pair selection engine returns the outcome of the first pair in list
order that is enabled, allowed by its context filter, and whose pattern
matches the input, and `none` when no enabled pair matches.  Stated as
the equality of `findMatchingPairWithResult` with the spec-side
first-satisfying-pair scan `selectSpec`; determinism of repeated calls
is immediate because both are functions of their arguments. -/
theorem claim_C1_first_match_wins :
    ∀ (E : RegexEngine) (pairs : List ReplacementPair) (text : String)
      (context : Option ContextType),
      findMatchingPairWithResult E pairs text context = selectSpec E pairs text context := by
  intro E pairs text context
  unfold findMatchingPairWithResult selectSpec
  induction pairs with
  | nil => cases context <;> rfl
  | cons p rest ih =>
    rw [List.filter_cons]
    cases context with
    | none =>
      by_cases hp : p.enabled
      · rw [if_pos (by simp [hp]), findLoop]
        cases hm : isMatch E text p with
        | some m =>
          rw [List.find?_cons_of_pos _ (by simp [hp, hm])]
          simp [hm]
        | none =>
          rw [List.find?_cons_of_neg _ (by simp [hm])]
          simpa [hm] using ih
      · rw [if_neg (by simp [hp]), List.find?_cons_of_neg _ (by simp [hp])]
        exact ih
    | some c =>
      by_cases hp : p.enabled
      · rw [if_pos (by simp [hp]), findLoop]
        by_cases hc : isContextAllowed p c
        · cases hm : isMatch E text p with
          | some m =>
            rw [List.find?_cons_of_pos _ (by simp [hp, hc, hm])]
            simp [hc, hm]
          | none =>
            rw [List.find?_cons_of_neg _ (by simp [hm])]
            simpa [hc, hm] using ih
        · rw [List.find?_cons_of_neg _ (by simp [hc])]
          simpa [hc] using ih
      · rw [if_neg (by simp [hp]), List.find?_cons_of_neg _ (by simp [hp])]
        exact ih

/-- Claim C2: a regex pair's match is accepted only when the full
matched substring equals the entire input (`match[0] === text`), so any
regex match returned by the matcher satisfies `m.full = text`; and the
spec's date example: the pair `(\d{4})-(\d{2})-(\d{2})` → `$3/$2/$1`
applied to `"2024-12-30"` yields `"30/12/2024"`, while the partial
match inside `"date: 2024-12-30"` is rejected. -/
theorem claim_C2_regex_full_match_rule :
    (∀ (E : RegexEngine) (text : String) (p : ReplacementPair) (m : MatchArray),
        isMatch E text p = some (MatchVal.regex m) → m.full = text)
    ∧ (regexMatch miniEngine "2024-12-30" dateRegexPair).map
        (applyCaptureGroups dateRegexPair.target) = some "30/12/2024"
    ∧ regexMatch miniEngine "date: 2024-12-30" dateRegexPair = none := by
  refine ⟨?_, by decide, by decide⟩
  intro E text p m h
  unfold isMatch at h
  by_cases hr : p.isRegex = true
  · rw [if_pos hr, Option.map_eq_some'] at h
    obtain ⟨ma, hma, hfa⟩ := h
    cases hfa
    unfold regexMatch at hma
    split at hma
    · exact absurd hma (by simp)
    · split at hma
      · split at hma
        · cases hma
          assumption
        · exact absurd hma (by simp)
      · exact absurd hma (by simp)
  · rw [if_neg hr] at h
    by_cases hw : p.wholeWord = some true
    · rw [if_pos hw] at h
      split at h <;> simp_all
    · rw [if_neg hw] at h
      split at h <;> simp_all

/-- Claim C2 (witness): the full-match rule instantiated at the date
example. -/
theorem claim_C2_witness :
    ({ full := "2024-12-30", groups := [some "2024", some "12", some "30"] }
      : MatchArray).full = "2024-12-30" :=
  claim_C2_regex_full_match_rule.1 miniEngine "2024-12-30" dateRegexPair
    { full := "2024-12-30", groups := [some "2024", some "12", some "30"] } (by decide)

/-- Claim C3 (the code at the claim's failing input): for the pair
`{source:"hello", wholeWord:true, caseSensitive:true}` and selection
`"say hello!"`, the matcher *does* report a match: the implementation
tests `new RegExp('\\bhello\\b')` against the text, and `test` scans
the whole string, finding the interior occurrence of `hello`.  The
claim (like the code's own comment "Check if the text is surrounded by
word boundaries") requires the boundary condition on the entire
candidate string, under which this input must not match. -/
theorem claim_C3_whole_word_scan_matches_interior_token :
    isMatch miniEngine "say hello!" wholeWordHelloPair = some MatchVal.literal := by
  decide

/-- Claim C4 (counterexample): for the pair `{source:"hello",
wholeWord:true}` with `caseSensitive` absent, the input `"HELLO"` *is*
matched: the whole-word branch builds its flags with the truthiness
test `pair.caseSensitive ? '' : 'i'`, so an absent `caseSensitive`
yields the `'i'` flag and case-insensitive matching, contradicting the
claim that an absent `caseSensitive` never case-adjusts. -/
theorem claim_C4_counterexample :
    isMatch miniEngine "HELLO" defaultCaseWholeWordPair = some MatchVal.literal := by
  decide

/-- Claim C4 (amended): in the plain-equality literal mode the default
is indeed case-sensitive — for any literal pair with `caseSensitive`
not `false` (absent or `true`) and `wholeWord` not `true`, matching
succeeds exactly on input equal to the source — but in the whole-word
mode an absent `caseSensitive` produces the `'i'` flag and hence
case-insensitive matching (second conjunct). -/
theorem claim_C4_amended_default_case_sensitivity :
    (∀ (E : RegexEngine) (text : String) (p : ReplacementPair),
        p.isRegex = false → p.caseSensitive ≠ some false → p.wholeWord ≠ some true →
          (isMatch E text p = some MatchVal.literal ↔ text = p.source))
    ∧ isMatch miniEngine "HELLO" defaultCaseWholeWordPair = some MatchVal.literal := by
  refine ⟨?_, by decide⟩
  intro E text p h1 h2 h3
  unfold isMatch
  rw [if_neg (by simp [h1]), if_neg h2, if_neg h2, if_neg h3]
  by_cases he : p.source = text
  · simp [he]
  · simp only [if_neg he]
    constructor
    · intro hh
      exact absurd hh (by simp)
    · intro hh
      exact absurd hh.symm he

/-- Claim C4 (witness). -/
theorem claim_C4_amended_witness :
    isMatch miniEngine "abc" { source := "abc", target := "t" } = some MatchVal.literal :=
  (claim_C4_amended_default_case_sensitivity.1 miniEngine "abc"
    { source := "abc", target := "t" } rfl (by simp) (by simp)).mpr rfl

set_option maxHeartbeats 1000000 in
/-- Claim C5: capture-group interpolation protects `\$` before numeric
substitution, substitutes `$0` with the full match and `$i` with group
`i`'s text (or `""` for a non-participating group), and restores the
escape to a literal `$` — so, for *every* match array, `\$1` comes out
as the literal `$1` (never a capture reference), the spec's example
`"\$1 means $1"` with group 1 = `"X"` interpolates to `"$1 means X"`,
`$0` is replaced by the full match, and a non-participating group
yields the empty string. -/
theorem claim_C5_capture_interpolation :
    (∀ m : MatchArray, applyCaptureGroups "\\$1" m = "$1")
    ∧ (∀ (f : String) (rest : List (Option String)),
        applyCaptureGroups "\\$1 means $1" { full := f, groups := some "X" :: rest }
          = "$1 means X")
    ∧ (∀ rest : List (Option String),
        applyCaptureGroups "$0" { full := "FULL", groups := rest } = "FULL")
    ∧ (∀ (f : String) (rest : List (Option String)),
        applyCaptureGroups "$1" { full := f, groups := none :: rest } = "") := by
  refine ⟨?_, ?_, ?_, ?_⟩
  · intro m
    show replaceAll
      (capLoop m
        (replaceAll (replaceAll "\\$1" "\\$" ESCAPED_DOLLAR_PLACEHOLDER) (dollarPat 0) m.full)
        [1, 2, 3, 4, 5, 6, 7, 8, 9])
      ESCAPED_DOLLAR_PLACEHOLDER "$" = "$1"
    rw [show replaceAll "\\$1" "\\$" ESCAPED_DOLLAR_PLACEHOLDER = "\x00ESCAPED_DOLLAR\x001"
      from by decide]
    rw [replaceAll_not_contains _ (dollarPat 0) m.full (by decide)]
    rw [capLoop_not_contains m _ _ (by decide)]
    decide
  · intro f rest
    show replaceAll
      (capLoop { full := f, groups := some "X" :: rest }
        (replaceAll (replaceAll "\\$1 means $1" "\\$" ESCAPED_DOLLAR_PLACEHOLDER)
          (dollarPat 0) f)
        [1, 2, 3, 4, 5, 6, 7, 8, 9])
      ESCAPED_DOLLAR_PLACEHOLDER "$" = "$1 means X"
    rw [show replaceAll "\\$1 means $1" "\\$" ESCAPED_DOLLAR_PLACEHOLDER
        = "\x00ESCAPED_DOLLAR\x001 means $1" from by decide]
    rw [replaceAll_not_contains _ (dollarPat 0) f (by decide)]
    rw [capLoop_cons]
    rw [show groupVal { full := f, groups := some "X" :: rest } 1 = "X" from rfl]
    rw [show replaceAll "\x00ESCAPED_DOLLAR\x001 means $1" (dollarPat 1) "X"
        = "\x00ESCAPED_DOLLAR\x001 means X" from by decide]
    rw [capLoop_not_contains _ _ _ (by decide)]
    decide
  · intro rest
    show replaceAll
      (capLoop { full := "FULL", groups := rest }
        (replaceAll (replaceAll "$0" "\\$" ESCAPED_DOLLAR_PLACEHOLDER) (dollarPat 0) "FULL")
        [1, 2, 3, 4, 5, 6, 7, 8, 9])
      ESCAPED_DOLLAR_PLACEHOLDER "$" = "FULL"
    rw [show replaceAll "$0" "\\$" ESCAPED_DOLLAR_PLACEHOLDER = "$0" from by decide]
    rw [show replaceAll "$0" (dollarPat 0) "FULL" = "FULL" from by decide]
    rw [capLoop_not_contains _ _ _ (by decide)]
    decide
  · intro f rest
    show replaceAll
      (capLoop { full := f, groups := none :: rest }
        (replaceAll (replaceAll "$1" "\\$" ESCAPED_DOLLAR_PLACEHOLDER) (dollarPat 0) f)
        [1, 2, 3, 4, 5, 6, 7, 8, 9])
      ESCAPED_DOLLAR_PLACEHOLDER "$" = ""
    rw [show replaceAll "$1" "\\$" ESCAPED_DOLLAR_PLACEHOLDER = "$1" from by decide]
    rw [replaceAll_not_contains _ (dollarPat 0) f (by decide)]
    rw [capLoop_cons]
    rw [show groupVal { full := f, groups := none :: rest } 1 = "" from rfl]
    rw [show replaceAll "$1" (dollarPat 1) "" = "" from by decide]
    rw [capLoop_not_contains _ _ _ (by decide)]
    decide

/-- Claim C6 (counterexample): a literal pair with empty source
*matches* the empty input (with `caseSensitive`/`wholeWord` unset the
matcher falls through to `'' === ''`), contradicting "returns none for
every input text in both literal and regex modes". -/
theorem claim_C6_counterexample :
    isMatch miniEngine "" { source := "", target := "t" } = some MatchVal.literal := by
  decide

/-- Claim C6 (amended): an empty/absent source yields no match for
every input in *regex* mode (`validateRegex` rejects the empty
pattern), while in literal mode with `wholeWord` not `true` an empty
source matches exactly the empty input. -/
theorem claim_C6_amended_empty_source :
    (∀ (E : RegexEngine) (text : String) (p : ReplacementPair),
        p.isRegex = true → p.source = "" → isMatch E text p = none)
    ∧ (∀ (E : RegexEngine) (text : String) (p : ReplacementPair),
        p.isRegex = false → p.source = "" → p.wholeWord ≠ some true →
          (isMatch E text p = some MatchVal.literal ↔ text = "")) := by
  constructor
  · intro E text p h1 h2
    unfold isMatch
    rw [if_pos h1]
    simp [regexMatch, validateRegex, h2]
  · intro E text p h1 h2 h3
    unfold isMatch
    rw [if_neg (by simp [h1]), h2]
    by_cases hcs : p.caseSensitive = some false
    · rw [if_pos hcs, if_pos hcs, if_neg h3]
      by_cases ht : text = ""
      · simp [ht, lowerStr]
      · have hl : ¬((lowerStr "") = lowerStr text) := by
          intro hh
          exact ht ((lowerStr_eq_empty_iff text).mp hh.symm)
        rw [if_neg hl]
        simp [ht]
    · rw [if_neg hcs, if_neg hcs, if_neg h3]
      by_cases ht : text = ""
      · simp [ht]
      · rw [if_neg (fun hh => ht hh.symm)]
        simp [ht]

/-- Claim C6 (witness for the amended regex conjunct). -/
theorem claim_C6_amended_witness :
    isMatch miniEngine "abc" { source := "", target := "t", isRegex := true } = none :=
  claim_C6_amended_empty_source.1 miniEngine "abc"
    { source := "", target := "t", isRegex := true } rfl rfl

/-- Claim C7: a malformed import payload (not an array, or containing
an element lacking a source or a target) is rejected before any
mutation: whatever the user could go on to choose, the stored pair
list is left completely unchanged. -/
theorem claim_C7_malformed_import_is_atomic :
    ∀ (current : List ReplacementPair) (payload : ImportPayload) (choice : ImportChoice),
      (payload = ImportPayload.notArray
        ∨ ∃ ps p, payload = ImportPayload.arr ps ∧ p ∈ ps
            ∧ (p.source = "" ∨ p.target = "")) →
      importFlow current payload choice = current := by
  intro current payload choice h
  rcases h with h | ⟨ps, p, hps, hmem, hbad⟩
  · subst h
    rfl
  · subst hps
    have hall : ps.all (fun p => p.source != "" && p.target != "") = false := by
      rw [List.all_eq_false]
      exact ⟨p, hmem, by rcases hbad with hb | hb <;> simp [hb]⟩
    simp [importFlow, importValidate, hall]

/-- Claim C7 (witness). -/
theorem claim_C7_witness :
    importFlow [{ source := "a", target := "b" }] ImportPayload.notArray
      ImportChoice.replaceMode = [{ source := "a", target := "b" }] :=
  claim_C7_malformed_import_is_atomic [{ source := "a", target := "b" }]
    ImportPayload.notArray ImportChoice.replaceMode (Or.inl rfl)

/-- Claim C8: importing a valid array of N pairs over a store of M
pairs yields exactly the N imported pairs in Replace mode, and in
Merge mode exactly the M existing pairs in their original order
followed by the N imported pairs in imported order (so M+N pairs). -/
theorem claim_C8_replace_and_merge_modes :
    ∀ (current ps : List ReplacementPair),
      ps.all (fun p => p.source != "" && p.target != "") = true →
        importFlow current (ImportPayload.arr ps) ImportChoice.replaceMode = ps
        ∧ importFlow current (ImportPayload.arr ps) ImportChoice.mergeMode = current ++ ps
        ∧ (importFlow current (ImportPayload.arr ps) ImportChoice.replaceMode).length
            = ps.length
        ∧ (importFlow current (ImportPayload.arr ps) ImportChoice.mergeMode).length
            = current.length + ps.length := by
  intro current ps h
  refine ⟨?_, ?_, ?_, ?_⟩ <;> simp [importFlow, importValidate, h]

/-- Claim C8 (witness). -/
theorem claim_C8_witness :
    importFlow [{ source := "a", target := "b" }]
        (ImportPayload.arr [{ source := "c", target := "d" }]) ImportChoice.mergeMode
      = [{ source := "a", target := "b" }, { source := "c", target := "d" }] :=
  (claim_C8_replace_and_merge_modes [{ source := "a", target := "b" }]
    [{ source := "c", target := "d" }] (by decide)).2.1

/-- Claim C9: the context classifier decides `codeBlock` by scanning
lines 0 through the target line inclusive, toggling an inside-fence
flag on every line whose trimmed text begins with three backticks or
three tildes, and classifying as `codeBlock` iff the flag is true
after the target line (first two conjuncts); and the concrete
documents: the middle line of a fenced block classifies `codeBlock`,
and a line before the opening fence classifies `normal`. -/
theorem claim_C9_code_block_classifier :
    (∀ (lines : List String) (n : Nat), isInCodeBlock lines n = codeBlockScanSpec lines n)
    ∧ (∀ (lines : List String) (line ch : Nat),
        detectContext lines line ch = ContextType.codeBlock
          ↔ isInCodeBlock lines line = true)
    ∧ detectContext ["```", "code", "```"] 1 0 = ContextType.codeBlock
    ∧ detectContext ["before", "```", "code", "```"] 2 0 = ContextType.codeBlock
    ∧ detectContext ["before", "```", "code", "```"] 0 0 = ContextType.normal := by
  refine ⟨?_, ?_, by decide, by decide, by decide⟩
  · intro lines n
    exact rangeScan_eq_takeScan lines (n + 1) false
  · intro lines line ch
    cases hcb : isInCodeBlock lines line with
    | true => simp [detectContext, hcb]
    | false =>
      simp only [detectContext, hcb]
      constructor
      · intro h
        rw [if_neg (by simp)] at h
        exact absurd h (by split_ifs <;> simp)
      · intro h
        exact absurd h (by simp)

/-- Claim C10: stripping the cursor marker removes only the first
occurrence of `{{cursor}}`: a processed template holding two or more
markers still contains a literal `{{cursor}}` after `removeCursorMarker`
(first conjunct), and the `processTemplate` path — cursor-marker
removal followed by tab-stop removal, whose regex `{{tabN}}` never
matches a cursor marker — inserts the surviving literal `{{cursor}}`
text into the document, as on the concrete two-marker template. -/
theorem claim_C10_extra_cursor_markers_survive :
    (∀ s : String, 2 ≤ countOcc s CURSOR_MARKER →
        containsSub (removeCursorMarker s) CURSOR_MARKER = true)
    ∧ processTemplateFinal "A\x7b\x7bcursor\x7d\x7dB\x7b\x7bcursor\x7d\x7dC"
        = "AB\x7b\x7bcursor\x7d\x7dC"
    ∧ containsSub (processTemplateFinal "A\x7b\x7bcursor\x7d\x7dB\x7b\x7bcursor\x7d\x7dC")
        CURSOR_MARKER = true := by
  refine ⟨?_, by decide, by decide⟩
  intro s h
  exact replaceFirst_keeps_later_occurrence CURSOR_MARKER.data s.data.length s.data
    (Nat.le_refl _) h

/-- Claim C10 (witness). -/
theorem claim_C10_witness :
    containsSub (removeCursorMarker "A\x7b\x7bcursor\x7d\x7dB\x7b\x7bcursor\x7d\x7dC")
      CURSOR_MARKER = true :=
  claim_C10_extra_cursor_markers_survive.1
    "A\x7b\x7bcursor\x7d\x7dB\x7b\x7bcursor\x7d\x7dC" (by decide)

end EZReplace
